import Mathlib

/-!
Shallow embedding of the vulnerability reconciliation engine of
`pysec2vuxml.py` (advisory classification, CVE gathering, cross-reference
resolution, skeleton synthesis, table-of-contents counting, id-file loading,
CVE publication-date lookup), together with theorems settling the spec claims.

Python strings are modelled as `String`, Python lists as `List`, Python
`None`-able values as `Option`, dictionaries iterated in insertion order as
association lists, and raised exceptions as `Except`.
-/

/-- One PYSEC vulnerability record as supplied by the advisory lookup
collaborator (`pipinfo`): the fields the engine reads. -/
structure Advisory where
  id : String
  aliases : List String
  summary : Option String
  details : String
  link : String
  fixed_in : List String
  withdrawn : Option String
  source : String
deriving DecidableEq, Repr

/-- Disposition of one advisory, per the control flow of
`print_vulnerabilities` (lines 381-435). -/
inductive Disposition where
  | Ignored
  | Withdrawn
  | Reported
  | Unreported
deriving DecidableEq, Repr

/-- Test `vulnerability['id'] in ids or any(alias in ids)`: the membership test the
code performs against the ignore list (lines 382-388) and against the reported
list (lines 426-432), each implemented as a flag plus a loop with break. -/
def matchesIdOrAlias (adv : Advisory) (ids : List String) : Bool :=
  ids.contains adv.id || adv.aliases.any (fun a => ids.contains a)

/-- Advisory disposition, in the order the checks appear in
`print_vulnerabilities`: the ignore test (line 383, terminal at line 391),
then the withdrawn test (line 421, terminal at line 423), then the reported
test (line 427, terminal at line 435), else the advisory is processed further
(Unreported). -/
def classify (adv : Advisory) (ignored reported : List String) : Disposition :=
  if matchesIdOrAlias adv ignored then .Ignored
  else if adv.withdrawn.isSome then .Withdrawn
  else if matchesIdOrAlias adv reported then .Reported
  else .Unreported

/-- Loop of lines 443-446: append each alias that starts with `"CVE"` and is
not already in the accumulated list; clear `no_cve` whenever something is
appended. -/
def gatherCvesAux : List String → List String → Bool → List String × Bool
  | [], acc, noCve => (acc, noCve)
  | a :: rest, acc, noCve =>
    if a.startsWith "CVE" ∧ a ∉ acc then gatherCvesAux rest (acc ++ [a]) false
    else gatherCvesAux rest acc noCve

/-- Lines 438-446: build `cve_list` and `no_cve` from the advisory id and its
aliases (id first, unconditionally appended when it starts with `"CVE"`). -/
def gatherCves (i : String) (aliases : List String) : List String × Bool :=
  if i.startsWith "CVE" then gatherCvesAux aliases [i] false
  else gatherCvesAux aliases [] true

/-- First-occurrence deduplication with an explicit seen-accumulator; spec
vocabulary for "insertion order, first occurrence wins", used to compare
`gatherCves` against the spec's CveEquivalenceSet description. -/
def eraseDupsKeepFirstAux (seen : List String) : List String → List String
  | [] => []
  | a :: rest =>
    if a ∈ seen then eraseDupsKeepFirstAux seen rest
    else a :: eraseDupsKeepFirstAux (seen ++ [a]) rest

/-- First-occurrence deduplication of a list (spec-side definition). -/
def eraseDupsKeepFirst (l : List String) : List String :=
  eraseDupsKeepFirstAux [] l

/-- The `<range>` element of a synthesized skeleton. -/
inductive VersionRange where
  | le (v : String)
  | lt (v : String)
  | placeholderRange
deriving DecidableEq, Repr

/-- Lines 516-521: the skeleton's version constraint from
`vulnerability['fixed_in']` and the current port version. -/
def skeletonRange (fixed_in : List String) (port_version : String) : VersionRange :=
  if fixed_in.length = 0 then .le port_version
  else if fixed_in.length = 1 then .lt (fixed_in.headD "")
  else .placeholderRange

/-- Function `get_ids_from_file` (lines 132-141): the file is `none` when
`os.path.isfile` is false, else `some` of its lines; keep the non-empty lines
not starting with `'#'`, in file order. -/
def get_ids_from_file (file : Option (List String)) : List String :=
  let lines := match file with
    | none => []
    | some ls => ls
  lines.filter (fun line => line ≠ "" ∧ ¬ line.startsWith "#")

/-- Split a character list at each `'-'` (the pieces `"x-y-z".split('-')`
would produce, on the character level). -/
def splitDashes : List Char → List (List Char)
  | [] => [[]]
  | c :: rest =>
    match splitDashes rest with
    | h :: t => if c = '-' then [] :: h :: t else (c :: h) :: t
    | [] => if c = '-' then [[], []] else [[c]]

/-- A run of decimal digits as a number; `none` when empty or non-numeric. -/
def digitsToNat? (cs : List Char) : Option Nat :=
  if cs ≠ [] ∧ cs.all Char.isDigit then
    some (cs.foldl (fun n c => n * 10 + (c.toNat - 48)) 0)
  else none

/-- Call `datetime.datetime.strptime(s, "%Y-%m-%d")`, modelled as splitting on the
dashes into three numeric fields; the empty string (and any non-date string)
fails to parse, as strptime raises ValueError on it.  (Calendar range checks
of strptime are elided: the engine only feeds it dates already rendered in
this format, or the empty string.) -/
def parseDate (s : String) : Option (Nat × Nat × Nat) :=
  match (splitDashes s.toList).map digitsToNat? with
  | [some y, some m, some d] => some (y, m, d)
  | _ => none

/-- Chronological (calendar-date) strict order on parsed dates, as comparison
of `datetime` values. -/
def dateLt : Nat × Nat × Nat → Nat × Nat × Nat → Bool
  | (y1, m1, d1), (y2, m2, d2) =>
    y1 < y2 || (y1 == y2 && (m1 < m2 || (m1 == m2 && d1 < d2)))

/-- Loop of lines 533-539 over the per-CVE publication dates returned by
`get_cve_publication_date` (in `cve_list` order): keep `first_publication_date`
/ replace it when `not first_publication_date or strptime(publication_date) <
strptime(first_publication_date)`.  When `first_publication_date` is non-empty
the two `strptime` calls run, and raise (`Except.error`) on an unparseable
date such as the empty string a failed lookup returns. -/
def selectFirstPublicationDate : List String → String → Except String String
  | [], first => .ok first
  | pub :: rest, first =>
    if first = "" then selectFirstPublicationDate rest pub
    else
      match parseDate pub, parseDate first with
      | some p, some f => selectFirstPublicationDate rest (if dateLt p f then pub else first)
      | _, _ => .error "ValueError: time data does not match format %Y-%m-%d"

/-- Lines 533-546: the `<discovery>` element synthesized for a skeleton, from
the list of per-CVE publication dates ('' for an unresolved CVE): the selected
first publication date when one was kept, else the placeholder. -/
def discoveryDateElement (dates : List String) : Except String String :=
  match selectFirstPublicationDate dates "" with
  | .ok first => .ok (if first ≠ "" then first else "INSERT_YEAR-MONTH-DAY")
  | .error e => .error e

/-- A `urllib.error.HTTPError`: the status code and reason phrase. -/
structure HttpError where
  code : Nat
  reason : String
deriving DecidableEq, Repr

/-- Line 195, `error == 'HTTP Error 404: Not Found'`: Python compares the
`HTTPError` exception OBJECT with a `str`; `HTTPError` defines no `__eq__`
accepting a string, so both operands return `NotImplemented` and `==` falls
back to identity, which is False for objects of different types.  The
comparison therefore never succeeds, whatever the error is. -/
def pyHttpErrorEqString (_error : HttpError) (_s : String) : Bool :=
  false

/-- What `get_cve_publication_date` writes to the caching file: the empty
"permanent miss" file of line 199, or the fetched body of line 204 (bodies
are modelled post-`json.loads` as the optional `cveMetadata.datePublished`
field). -/
inductive CacheWrite where
  | emptyFile
  | body (datePublished : Option String)
deriving DecidableEq, Repr

/-- Substitution `re.sub(r"T.*$", "", s)` of line 209: drop everything from the first
`'T'` on. -/
def stripTimePart (s : String) : String :=
  s.takeWhile (fun c => c ≠ 'T')

/-- Lines 206-211: extract the publication date from a parsed body — `''`
when `cveMetadata`/`datePublished` is missing, else the date part of the
field. -/
def extractPublicationDate (datePublished : Option String) : String :=
  match datePublished with
  | none => ""
  | some d => stripTimePart d

/-- Observable outcome of one `get_cve_publication_date` call: the returned
date string and the write (if any) performed on the per-CVE cache file. -/
structure CveFetchOutcome where
  date : String
  cacheWrite : Option CacheWrite
deriving DecidableEq, Repr

/-- Function `get_cve_publication_date` (lines 173-211).  `hasCachingFile`: whether
`get_caching_directory` returned a directory (so `caching_file` is non-empty);
`cached`: `some body` when `os.path.isfile(caching_file)` (body as parsed
`datePublished` field), else `none`; `fetch`: the web service outcome, body or
HTTP error.  On the error branch the empty miss file is written only when
`error == 'HTTP Error 404: Not Found'` holds and a caching file is configured
(lines 195-199), and `''` is returned (line 200). -/
def get_cve_publication_date (hasCachingFile : Bool) (cached : Option (Option String))
    (fetch : Except HttpError (Option String)) : CveFetchOutcome :=
  match cached with
  | some body => { date := extractPublicationDate body, cacheWrite := none }
  | none =>
    match fetch with
    | .error e =>
      { date := ""
        cacheWrite :=
          if pyHttpErrorEqString e "HTTP Error 404: Not Found" && hasCachingFile then
            some .emptyFile
          else none }
    | .ok body =>
      { date := extractPublicationDate body
        cacheWrite := if hasCachingFile then some (.body body) else none }

/-- One record of the loaded VuXML database: its `references` entries, each a
dictionary flattened to its `(key, value)` items in order; `none` when the
record has no `'references'` key (line 465 / 478). -/
structure VuxmlRecord where
  references : Option (List (List (String × String)))

/-- The VuXML collaborator as the resolver sees it: record access by vid and
the two search functions (`search_vulns_by_package` with `''` meaning any
version, and `search_vulns_by_reference`). -/
structure VuxmlDb where
  get : String → VuxmlRecord
  searchByPackage : String → String → List String
  searchByReference : String → String → List String

/-- Inner loops of the CVE-name pass (lines 466-474 / 479-487), flattened
over one record's reference items: for each `(key, value)` with
`key == "cvename"` and `value` in the current `cve_list`, emit the record id
(`vuxml.print_vuln`), record the matched CVE, and `cve_list.remove(value)`.
Returns (emitted vids, matched CVEs, remaining CVE list); the matched-CVE
component is instrumentation (the source only prints), recording which CVE
caused each emission. -/
def procPairs (vid : String) : List (String × String) → List String →
    List String × List String × List String
  | [], cves => ([], [], cves)
  | (k, v) :: rest, cves =>
    if k = "cvename" ∧ v ∈ cves then
      let r := procPairs vid rest (cves.erase v)
      (vid :: r.1, v :: r.2.1, r.2.2)
    else procPairs vid rest cves

/-- Process one returned record in the CVE-name pass: nothing when it has no
references, else its flattened reference items. -/
def procRecord (db : VuxmlDb) (vid : String) (cves : List String) :
    List String × List String × List String :=
  match (db.get vid).references with
  | none => ([], [], cves)
  | some refs => procPairs vid refs.flatten cves

/-- Loop over one query's returned vids (`for vid in vulns`, lines 464 / 477),
threading `cve_list` through. -/
def procVids (db : VuxmlDb) : List String → List String →
    List String × List String × List String
  | [], cves => ([], [], cves)
  | vid :: rest, cves =>
    let r1 := procRecord db vid cves
    let r2 := procVids db rest r1.2.2
    (r1.1 ++ r2.1, r1.2.1 ++ r2.2.1, r2.2.2)

/-- Inner loop of the ANOTHER-port pass (lines 494-500) for one CVE's query
results, threading the pass-wide `vid_list`: emit `(cve, vid)` for each vid
not yet in `vid_list`, appending it. -/
def step4Inner (cve : String) : List String → List String →
    List (String × String) × List String
  | [], vidList => ([], vidList)
  | vid :: rest, vidList =>
    if vid ∈ vidList then step4Inner cve rest vidList
    else
      let r := step4Inner cve rest (vidList ++ [vid])
      ((cve, vid) :: r.1, r.2)

/-- Outer loop of the ANOTHER-port pass (lines 491-500): for each remaining
CVE, query `search_vulns_by_reference(db, 'cvename', cve)` and emit unseen
vids; `vid_list` persists across CVEs.  Emissions are tagged with the CVE
whose query produced them. -/
def step4 (db : VuxmlDb) : List String → List String → List (String × String)
  | [], _ => []
  | cve :: rest, vidList =>
    let r := step4Inner cve (db.searchByReference "cvename" cve) vidList
    r.1 ++ step4 db rest r.2

/-- Result of the CVE-name resolution (steps 2-4 of the resolver) for one
advisory. -/
structure ResolveResult where
  thisTargetEmits : List String
  matchedCves : List String
  otherTargetPairs : List (String × String)
  unresolvedCves : List String

/-- Lines 461-503: the CVE-name resolution.  Step 2 queries
`(port_name, package_version)`; step 3, only when `cve_list` is still
non-empty (line 475), queries `(port_name, '')`; step 4 runs the ANOTHER-port
pass over what remains; `unresolvedCves` is `cve_list` after steps 2-3 (step 4
removes nothing), and it is what gates skeleton synthesis (line 503). -/
def resolveCves (db : VuxmlDb) (portName packageVersion : String)
    (cves0 : List String) : ResolveResult :=
  let s2 := procVids db (db.searchByPackage portName packageVersion) cves0
  let s3 := if s2.2.2.length > 0 then procVids db (db.searchByPackage portName "") s2.2.2
            else ([], [], s2.2.2)
  { thisTargetEmits := s2.1 ++ s3.1
    matchedCves := s2.2.1 ++ s3.2.1
    otherTargetPairs := step4 db s3.2.2 []
    unresolvedCves := s3.2.2 }

/-- One enriched FreeBSD port entry (`enrich_ports_list` output): the fields
`print_table_of_contents` reads. -/
structure Port where
  vname : String
  dir : String
  name : String
  version : String
  maintainer : String
  www : String
  comment : String

/-- Lines 253-264: count the vulnerabilities of one (package, version) pair
that are neither ignored nor withdrawn. -/
def toc_count_vulns (package_vulns : List Advisory) (ignored : List String) : Nat :=
  package_vulns.countP
    (fun v => !(matchesIdOrAlias v ignored) && v.withdrawn.isNone)

/-- Inner loop of `print_table_of_contents` (lines 231-292) over one
package's `(version, vulns)` items: a pair with no matching port is skipped
with a warning (line 250); a matched pair with zero countable vulnerabilities
increments `false_positive` (line 267); otherwise its count joins `contents`
(only the count column matters to the aggregate equations; the display-only
columns are omitted).  Returns (false positives, per-row counts in order). -/
def toc_process_versions (ports : List Port) (ignored : List String)
    (pkg : String) : List (String × List Advisory) → Nat × List Nat
  | [] => (0, [])
  | (ver, vulns) :: rest =>
    match ports.find? (fun p => p.name == pkg && p.version == ver) with
    | none => toc_process_versions ports ignored pkg rest
    | some _ =>
      let n := toc_count_vulns vulns ignored
      match toc_process_versions ports ignored pkg rest with
      | (fp, rows) => if n = 0 then (fp + 1, rows) else (fp, n :: rows)

/-- Outer loop of `print_table_of_contents` (line 230) over the
`vulnerable_ports` mapping, modelled as an association list
package name → (version → advisory list) in insertion order. -/
def toc_process (ports : List Port) (ignored : List String) :
    List (String × List (String × List Advisory)) → Nat × List Nat
  | [] => (0, [])
  | (pkg, versions) :: rest =>
    match toc_process_versions ports ignored pkg versions with
    | (fp1, rows1) =>
      match toc_process ports ignored rest with
      | (fp2, rows2) => (fp1 + fp2, rows1 ++ rows2)

/-- Line 315: the printed `vulnerable ports` aggregate,
`len(vulnerable_ports) - false_positive` (Python int arithmetic, so `Int`). -/
def toc_vulnerable_ports_printed (ports : List Port) (ignored : List String)
    (vps : List (String × List (String × List Advisory))) : Int :=
  (vps.length : Int) - ((toc_process ports ignored vps).1 : Int)

/-- Lines 303-317: the printed `vulnerabilities` total, accumulated over the
content rows by `vulnerabilities_count += content['vulnerabilities']`. -/
def toc_vulnerabilities_printed (ports : List Port) (ignored : List String)
    (vps : List (String × List (String × List Advisory))) : Nat :=
  (toc_process ports ignored vps).2.foldl (· + ·) 0

/-! Helper lemmas. -/

theorem eraseDupsKeepFirstAux_nodup (l : List String) : ∀ seen : List String,
    (eraseDupsKeepFirstAux seen l).Nodup ∧ ∀ x ∈ eraseDupsKeepFirstAux seen l, x ∉ seen := by
  induction l with
  | nil => intro seen; simp [eraseDupsKeepFirstAux]
  | cons a rest ih =>
    intro seen
    by_cases h : a ∈ seen
    · simpa [eraseDupsKeepFirstAux, h] using ih seen
    · have h2 := ih (seen ++ [a])
      refine ⟨?_, ?_⟩
      · simp only [eraseDupsKeepFirstAux, h, if_false, List.nodup_cons]
        refine ⟨fun hmem => ?_, h2.1⟩
        exact h2.2 a hmem (by simp)
      · intro x hx
        simp only [eraseDupsKeepFirstAux, h, if_false, List.mem_cons] at hx
        rcases hx with rfl | hx
        · exact h
        · have := h2.2 x hx
          simp only [List.mem_append] at this
          exact fun hxs => this (Or.inl hxs)

theorem gatherCvesAux_fst (rest : List String) : ∀ (acc : List String) (noCve : Bool),
    (gatherCvesAux rest acc noCve).1 =
      acc ++ eraseDupsKeepFirstAux acc (rest.filter (fun s => s.startsWith "CVE")) := by
  induction rest with
  | nil => intro acc noCve; simp [gatherCvesAux, eraseDupsKeepFirstAux]
  | cons a rest ih =>
    intro acc noCve
    by_cases h1 : a.startsWith "CVE"
    · by_cases h2 : a ∈ acc
      · simp [gatherCvesAux, h1, h2, List.filter_cons, eraseDupsKeepFirstAux, ih]
      · simp [gatherCvesAux, h1, h2, List.filter_cons, eraseDupsKeepFirstAux, ih]
    · simp [gatherCvesAux, h1, List.filter_cons, ih]

theorem gatherCvesAux_snd_false (rest : List String) : ∀ acc : List String,
    (gatherCvesAux rest acc false).2 = false := by
  induction rest with
  | nil => intro acc; simp [gatherCvesAux]
  | cons a rest ih =>
    intro acc
    by_cases h : a.startsWith "CVE" ∧ a ∉ acc
    · simp [gatherCvesAux, h, ih]
    · simp [gatherCvesAux, h, ih]

theorem gatherCvesAux_snd_true (rest : List String) : ∀ acc : List String,
    (gatherCvesAux rest acc true).2 =
      (eraseDupsKeepFirstAux acc (rest.filter (fun s => s.startsWith "CVE"))).isEmpty := by
  induction rest with
  | nil => intro acc; simp [gatherCvesAux, eraseDupsKeepFirstAux]
  | cons a rest ih =>
    intro acc
    by_cases h1 : a.startsWith "CVE"
    · by_cases h2 : a ∈ acc
      · simp [gatherCvesAux, h1, h2, List.filter_cons, eraseDupsKeepFirstAux, ih]
      · simp [gatherCvesAux, h1, h2, List.filter_cons, eraseDupsKeepFirstAux,
              gatherCvesAux_snd_false]
    · simp [gatherCvesAux, h1, List.filter_cons, ih]

theorem eraseDupsKeepFirst_nodup (l : List String) : (eraseDupsKeepFirst l).Nodup :=
  (eraseDupsKeepFirstAux_nodup l []).1

/-- C7: for every advisory, `cve_list` (built from the id followed by the
aliases, keeping the identifiers starting with `"CVE"`) has no duplicates and
is exactly the first-occurrence deduplication of the CVE-form candidates in
order; it is empty exactly when `no_cve` is true. -/
theorem cveEquivalenceSet_nodup_firstOccurrence_empty_iff (i : String) (aliases : List String) :
    ((gatherCves i aliases).1).Nodup ∧
    (gatherCves i aliases).1 =
      eraseDupsKeepFirst ((i :: aliases).filter (fun s => s.startsWith "CVE")) ∧
    ((gatherCves i aliases).1 = [] ↔ (gatherCves i aliases).2 = true) := by
  by_cases h : i.startsWith "CVE"
  · have hfst := gatherCvesAux_fst aliases [i] false
    have hsnd := gatherCvesAux_snd_false aliases [i]
    have heq : (gatherCves i aliases).1 =
        [i] ++ eraseDupsKeepFirstAux [i] (aliases.filter (fun s => s.startsWith "CVE")) := by
      simp [gatherCves, h, hfst]
    refine ⟨?_, ?_, ?_⟩
    · rw [heq]
      have hn := eraseDupsKeepFirstAux_nodup (aliases.filter (fun s => s.startsWith "CVE")) [i]
      simp only [List.singleton_append, List.nodup_cons]
      exact ⟨fun hmem => hn.2 i hmem (by simp), hn.1⟩
    · rw [heq]
      simp [eraseDupsKeepFirst, List.filter_cons, h, eraseDupsKeepFirstAux]
    · rw [heq]
      simp [gatherCves, h, hsnd]
  · have hfst := gatherCvesAux_fst aliases [] true
    have hsnd := gatherCvesAux_snd_true aliases []
    have heq : (gatherCves i aliases).1 =
        eraseDupsKeepFirstAux [] (aliases.filter (fun s => s.startsWith "CVE")) := by
      simp [gatherCves, h, hfst]
    refine ⟨?_, ?_, ?_⟩
    · rw [heq]
      exact (eraseDupsKeepFirstAux_nodup (aliases.filter (fun s => s.startsWith "CVE")) []).1
    · rw [heq]
      simp [eraseDupsKeepFirst, List.filter_cons, h]
    · rw [heq]
      simp [gatherCves, h, hsnd, List.isEmpty_iff]

theorem procPairs_cons_pos (vid k v : String) (rest : List (String × String))
    (cves : List String) (h : k = "cvename" ∧ v ∈ cves) :
    procPairs vid ((k, v) :: rest) cves =
      (vid :: (procPairs vid rest (cves.erase v)).1,
       v :: (procPairs vid rest (cves.erase v)).2.1,
       (procPairs vid rest (cves.erase v)).2.2) := by
  simp only [procPairs]
  rw [if_pos h]

theorem procPairs_cons_neg (vid k v : String) (rest : List (String × String))
    (cves : List String) (h : ¬ (k = "cvename" ∧ v ∈ cves)) :
    procPairs vid ((k, v) :: rest) cves = procPairs vid rest cves := by
  simp only [procPairs]
  rw [if_neg h]

theorem procPairs_remaining_sublist (vid : String) (pairs : List (String × String)) :
    ∀ cves : List String, List.Sublist (procPairs vid pairs cves).2.2 cves := by
  induction pairs with
  | nil => intro cves; simp [procPairs]
  | cons p rest ih =>
    intro cves
    obtain ⟨k, v⟩ := p
    by_cases h : k = "cvename" ∧ v ∈ cves
    · rw [procPairs_cons_pos vid k v rest cves h]
      exact (ih (cves.erase v)).trans (List.erase_sublist v cves)
    · rw [procPairs_cons_neg vid k v rest cves h]
      exact ih cves

theorem procPairs_matched_subset (vid : String) (pairs : List (String × String)) :
    ∀ cves : List String, ∀ x ∈ (procPairs vid pairs cves).2.1, x ∈ cves := by
  induction pairs with
  | nil => intro cves; simp [procPairs]
  | cons p rest ih =>
    intro cves x hx
    obtain ⟨k, v⟩ := p
    by_cases h : k = "cvename" ∧ v ∈ cves
    · rw [procPairs_cons_pos vid k v rest cves h] at hx
      simp only [List.mem_cons] at hx
      rcases hx with hx | hx
      · rw [hx]; exact h.2
      · exact (List.erase_sublist v cves).subset (ih (cves.erase v) x hx)
    · rw [procPairs_cons_neg vid k v rest cves h] at hx
      exact ih cves x hx

theorem procPairs_matched_nodup_disjoint (vid : String) (pairs : List (String × String)) :
    ∀ cves : List String, cves.Nodup →
      ((procPairs vid pairs cves).2.1.Nodup ∧
       ∀ x ∈ (procPairs vid pairs cves).2.1, x ∉ (procPairs vid pairs cves).2.2) := by
  induction pairs with
  | nil => intro cves _; simp [procPairs]
  | cons p rest ih =>
    intro cves hnd
    obtain ⟨k, v⟩ := p
    by_cases h : k = "cvename" ∧ v ∈ cves
    · have hen : (cves.erase v).Nodup := hnd.erase v
      have hvne : v ∉ cves.erase v := hnd.not_mem_erase
      have hrec := ih (cves.erase v) hen
      rw [procPairs_cons_pos vid k v rest cves h]
      simp only [List.nodup_cons, List.mem_cons]
      refine ⟨⟨?_, hrec.1⟩, ?_⟩
      · intro hv
        exact hvne (procPairs_matched_subset vid rest (cves.erase v) v hv)
      · rintro x (hx | hx)
        · rw [hx]
          intro hmem
          exact hvne ((procPairs_remaining_sublist vid rest (cves.erase v)).subset hmem)
        · exact hrec.2 x hx
    · rw [procPairs_cons_neg vid k v rest cves h]
      exact ih cves hnd

theorem procPairs_emits_length (vid : String) (pairs : List (String × String)) :
    ∀ cves : List String,
      (procPairs vid pairs cves).1.length = (procPairs vid pairs cves).2.1.length := by
  induction pairs with
  | nil => intro cves; simp [procPairs]
  | cons p rest ih =>
    intro cves
    obtain ⟨k, v⟩ := p
    by_cases h : k = "cvename" ∧ v ∈ cves
    · rw [procPairs_cons_pos vid k v rest cves h]
      simp only [List.length_cons]
      exact congrArg Nat.succ (ih (cves.erase v))
    · rw [procPairs_cons_neg vid k v rest cves h]
      exact ih cves

theorem procRecord_remaining_sublist (db : VuxmlDb) (vid : String) (cves : List String) :
    List.Sublist (procRecord db vid cves).2.2 cves := by
  unfold procRecord
  cases (db.get vid).references with
  | none => simp
  | some refs => exact procPairs_remaining_sublist vid refs.flatten cves

theorem procRecord_matched_subset (db : VuxmlDb) (vid : String) (cves : List String) :
    ∀ x ∈ (procRecord db vid cves).2.1, x ∈ cves := by
  unfold procRecord
  cases (db.get vid).references with
  | none => simp
  | some refs => exact procPairs_matched_subset vid refs.flatten cves

theorem procRecord_matched_nodup_disjoint (db : VuxmlDb) (vid : String) (cves : List String)
    (hnd : cves.Nodup) :
    (procRecord db vid cves).2.1.Nodup ∧
    ∀ x ∈ (procRecord db vid cves).2.1, x ∉ (procRecord db vid cves).2.2 := by
  unfold procRecord
  cases (db.get vid).references with
  | none => simp
  | some refs => exact procPairs_matched_nodup_disjoint vid refs.flatten cves hnd

theorem procRecord_emits_length (db : VuxmlDb) (vid : String) (cves : List String) :
    (procRecord db vid cves).1.length = (procRecord db vid cves).2.1.length := by
  unfold procRecord
  cases (db.get vid).references with
  | none => simp
  | some refs => exact procPairs_emits_length vid refs.flatten cves

theorem procVids_remaining_sublist (db : VuxmlDb) (vids : List String) :
    ∀ cves : List String, List.Sublist (procVids db vids cves).2.2 cves := by
  induction vids with
  | nil => intro cves; simp [procVids]
  | cons vid rest ih =>
    intro cves
    simp only [procVids]
    exact (ih (procRecord db vid cves).2.2).trans (procRecord_remaining_sublist db vid cves)

theorem procVids_matched_subset (db : VuxmlDb) (vids : List String) :
    ∀ cves : List String, ∀ x ∈ (procVids db vids cves).2.1, x ∈ cves := by
  induction vids with
  | nil => intro cves; simp [procVids]
  | cons vid rest ih =>
    intro cves x hx
    simp only [procVids, List.mem_append] at hx
    rcases hx with hx | hx
    · exact procRecord_matched_subset db vid cves x hx
    · exact (procRecord_remaining_sublist db vid cves).subset
        (ih (procRecord db vid cves).2.2 x hx)

theorem procVids_matched_nodup_disjoint (db : VuxmlDb) (vids : List String) :
    ∀ cves : List String, cves.Nodup →
      ((procVids db vids cves).2.1.Nodup ∧
       ∀ x ∈ (procVids db vids cves).2.1, x ∉ (procVids db vids cves).2.2) := by
  induction vids with
  | nil => intro cves _; simp [procVids]
  | cons vid rest ih =>
    intro cves hnd
    have h1 := procRecord_matched_nodup_disjoint db vid cves hnd
    have hc1nd : (procRecord db vid cves).2.2.Nodup :=
      (procRecord_remaining_sublist db vid cves).nodup hnd
    have h2 := ih (procRecord db vid cves).2.2 hc1nd
    simp only [procVids, List.nodup_append, List.mem_append]
    refine ⟨⟨h1.1, h2.1, ?_⟩, ?_⟩
    · intro x hx hx2
      exact h1.2 x hx (procVids_matched_subset db rest (procRecord db vid cves).2.2 x hx2)
    · rintro x (hx | hx)
      · intro hmem
        exact h1.2 x hx
          ((procVids_remaining_sublist db rest (procRecord db vid cves).2.2).subset hmem)
      · exact h2.2 x hx

theorem procVids_emits_length (db : VuxmlDb) (vids : List String) :
    ∀ cves : List String,
      (procVids db vids cves).1.length = (procVids db vids cves).2.1.length := by
  induction vids with
  | nil => intro cves; simp [procVids]
  | cons vid rest ih =>
    intro cves
    simp only [procVids, List.length_append]
    rw [procRecord_emits_length db vid cves, ih (procRecord db vid cves).2.2]

theorem step4Inner_pairs_cve (cve : String) (vids : List String) :
    ∀ vidList : List String, ∀ pr ∈ (step4Inner cve vids vidList).1, pr.1 = cve := by
  induction vids with
  | nil => intro vidList; simp [step4Inner]
  | cons vid rest ih =>
    intro vidList pr hpr
    by_cases h : vid ∈ vidList
    · rw [step4Inner, if_pos h] at hpr
      exact ih vidList pr hpr
    · rw [step4Inner, if_neg h] at hpr
      simp only [List.mem_cons] at hpr
      rcases hpr with hpr | hpr
      · rw [hpr]
      · exact ih (vidList ++ [vid]) pr hpr

theorem step4_pairs_cve_mem (db : VuxmlDb) (cves : List String) :
    ∀ vidList : List String, ∀ pr ∈ step4 db cves vidList, pr.1 ∈ cves := by
  induction cves with
  | nil => intro vidList; simp [step4]
  | cons cve rest ih =>
    intro vidList pr hpr
    simp only [step4, List.mem_append] at hpr
    rcases hpr with hpr | hpr
    · simp [step4Inner_pairs_cve cve (db.searchByReference "cvename" cve) vidList pr hpr]
    · exact List.mem_cons_of_mem cve
        (ih (step4Inner cve (db.searchByReference "cvename" cve) vidList).2 pr hpr)

theorem resolveCves_matched_not_unresolved (db : VuxmlDb) (portName packageVersion : String)
    (cves0 : List String) (hnd : cves0.Nodup) :
    ∀ c ∈ (resolveCves db portName packageVersion cves0).matchedCves,
      c ∉ (resolveCves db portName packageVersion cves0).unresolvedCves := by
  intro c hc
  have h2 := procVids_matched_nodup_disjoint db (db.searchByPackage portName packageVersion)
    cves0 hnd
  by_cases hlen : (procVids db (db.searchByPackage portName packageVersion) cves0).2.2.length > 0
  · simp only [resolveCves, if_pos hlen, List.mem_append] at hc ⊢
    have hc2nd : (procVids db (db.searchByPackage portName packageVersion) cves0).2.2.Nodup :=
      (procVids_remaining_sublist db (db.searchByPackage portName packageVersion) cves0).nodup hnd
    have h3 := procVids_matched_nodup_disjoint db (db.searchByPackage portName "")
      (procVids db (db.searchByPackage portName packageVersion) cves0).2.2 hc2nd
    rcases hc with hc | hc
    · intro hmem
      exact h2.2 c hc
        ((procVids_remaining_sublist db (db.searchByPackage portName "") _).subset hmem)
    · exact h3.2 c hc
  · simp only [resolveCves, if_neg hlen, List.mem_append, List.not_mem_nil, or_false] at hc ⊢
    exact h2.2 c hc

/-- C5: a CVE matched (classified thisTarget) in resolver step 2 or 3 was
removed from `cve_list` at the match, so it is not in the `unresolvedCves`
output that gates skeleton synthesis, and no otherTarget (step-4) match is
produced by querying it. -/
theorem resolver_matched_cve_not_reconsidered (db : VuxmlDb)
    (portName packageVersion : String) (cves0 : List String) (hnd : cves0.Nodup)
    (c : String) (hc : c ∈ (resolveCves db portName packageVersion cves0).matchedCves) :
    c ∉ (resolveCves db portName packageVersion cves0).unresolvedCves ∧
    ∀ pr ∈ (resolveCves db portName packageVersion cves0).otherTargetPairs, pr.1 ≠ c := by
  have hmain := resolveCves_matched_not_unresolved db portName packageVersion cves0 hnd c hc
  refine ⟨hmain, ?_⟩
  intro pr hpr hprc
  apply hmain
  rw [← hprc]
  have hoth : (resolveCves db portName packageVersion cves0).otherTargetPairs =
      step4 db (resolveCves db portName packageVersion cves0).unresolvedCves [] := rfl
  rw [hoth] at hpr
  exact step4_pairs_cve_mem db (resolveCves db portName packageVersion cves0).unresolvedCves
    [] pr hpr

/-- Concrete database for the resolver theorems: one record `r1` carrying a
`cvename` reference to `CVE-X`, returned by the exact-version query; the
by-reference query always returns the unrelated record `r9`. -/
def sampleDbOne : VuxmlDb :=
  { get := fun vid =>
      if vid = "r1" then { references := some [[("cvename", "CVE-X")]] }
      else { references := none }
    searchByPackage := fun _ ver => if ver = "1.0" then ["r1"] else []
    searchByReference := fun _ _ => ["r9"] }

theorem resolver_matched_cve_not_reconsidered_witness :
    ["CVE-X", "CVE-Y"].Nodup ∧
    "CVE-X" ∈ (resolveCves sampleDbOne "py39-p" "1.0" ["CVE-X", "CVE-Y"]).matchedCves ∧
    ("CVE-X" ∉ (resolveCves sampleDbOne "py39-p" "1.0" ["CVE-X", "CVE-Y"]).unresolvedCves ∧
     ∀ pr ∈ (resolveCves sampleDbOne "py39-p" "1.0" ["CVE-X", "CVE-Y"]).otherTargetPairs,
       pr.1 ≠ "CVE-X") :=
  ⟨by decide, by decide,
   resolver_matched_cve_not_reconsidered sampleDbOne "py39-p" "1.0" ["CVE-X", "CVE-Y"]
     (by decide) "CVE-X" (by decide)⟩

/-- Concrete database refuting per-record deduplication in the CVE-name pass:
record `r1` carries two `cvename` references, both in the CVE set. -/
def sampleDbTwoRefs : VuxmlDb :=
  { get := fun vid =>
      if vid = "r1" then { references := some [[("cvename", "CVE-A")], [("cvename", "CVE-B")]] }
      else { references := none }
    searchByPackage := fun _ _ => ["r1"]
    searchByReference := fun _ _ => [] }

/-- C6 counterexample: in the CVE-name pass (steps 2-3) there is no
deduplication by record id — a record whose references carry two CVEs of the
set is emitted (printed) twice as a thisTarget match. -/
theorem resolver_thisTarget_vid_emitted_twice :
    (resolveCves sampleDbTwoRefs "py39-p" "1.0" ["CVE-A", "CVE-B"]).thisTargetEmits.count "r1"
      = 2 := by decide

/-- C6 (amended): in the CVE-name pass, emissions are deduplicated by CVE, not
by record id: each emission consumes one distinct CVE of the set (the matched
CVEs are pairwise distinct and in bijection with the emissions), so a record
id is emitted once per matched `cvename` reference and can appear more than
once. -/
theorem resolver_thisTarget_emissions_per_matched_cve (db : VuxmlDb)
    (portName packageVersion : String) (cves0 : List String) (hnd : cves0.Nodup) :
    (resolveCves db portName packageVersion cves0).thisTargetEmits.length =
      (resolveCves db portName packageVersion cves0).matchedCves.length ∧
    (resolveCves db portName packageVersion cves0).matchedCves.Nodup := by
  have h2 := procVids_matched_nodup_disjoint db (db.searchByPackage portName packageVersion)
    cves0 hnd
  have hl2 := procVids_emits_length db (db.searchByPackage portName packageVersion) cves0
  by_cases hlen : (procVids db (db.searchByPackage portName packageVersion) cves0).2.2.length > 0
  · have hc2nd : (procVids db (db.searchByPackage portName packageVersion) cves0).2.2.Nodup :=
      (procVids_remaining_sublist db (db.searchByPackage portName packageVersion) cves0).nodup hnd
    have h3 := procVids_matched_nodup_disjoint db (db.searchByPackage portName "")
      (procVids db (db.searchByPackage portName packageVersion) cves0).2.2 hc2nd
    have hl3 := procVids_emits_length db (db.searchByPackage portName "")
      (procVids db (db.searchByPackage portName packageVersion) cves0).2.2
    simp only [resolveCves, if_pos hlen, List.length_append, List.nodup_append]
    refine ⟨by rw [hl2, hl3], h2.1, h3.1, ?_⟩
    intro x hx hx3
    exact h2.2 x hx (procVids_matched_subset db (db.searchByPackage portName "") _ x hx3)
  · simp only [resolveCves, if_neg hlen, List.length_append, List.nodup_append]
    simpa [hl2] using h2.1

theorem resolver_thisTarget_emissions_per_matched_cve_witness :
    ["CVE-A", "CVE-B"].Nodup ∧
    ((resolveCves sampleDbTwoRefs "py39-p" "1.0" ["CVE-A", "CVE-B"]).thisTargetEmits.length =
       (resolveCves sampleDbTwoRefs "py39-p" "1.0" ["CVE-A", "CVE-B"]).matchedCves.length ∧
     (resolveCves sampleDbTwoRefs "py39-p" "1.0" ["CVE-A", "CVE-B"]).matchedCves.Nodup) :=
  ⟨by decide,
   resolver_thisTarget_emissions_per_matched_cve sampleDbTwoRefs "py39-p" "1.0"
     ["CVE-A", "CVE-B"] (by decide)⟩

/-- A withdrawn advisory whose id is also on the ignore list. -/
def withdrawnIgnoredAdvisory : Advisory :=
  { id := "PYSEC-2021-1", aliases := [], summary := none, details := "", link := "",
    fixed_in := [], withdrawn := some "2022-04-01T10:00:00Z", source := "" }

/-- C1 counterexample: the ignore test runs before the withdrawn test, so a
withdrawn advisory whose id is in the ignore set is classified Ignored, not
Withdrawn — the withdrawn check is not performed first. -/
theorem classify_withdrawn_ignored_is_Ignored :
    withdrawnIgnoredAdvisory.withdrawn.isSome = true ∧
    classify withdrawnIgnoredAdvisory ["PYSEC-2021-1"] [] = Disposition.Ignored ∧
    classify withdrawnIgnoredAdvisory ["PYSEC-2021-1"] [] ≠ Disposition.Withdrawn := by
  decide

/-- C1 (amended): for an advisory whose withdrawn field is set and whose id
and aliases do not match the ignore set, the disposition is Withdrawn
regardless of reported-set membership: the withdrawn check precedes the
reported check and is terminal, but it follows the ignore check. -/
theorem classify_withdrawn_not_ignored (adv : Advisory) (ignored reported : List String)
    (hw : adv.withdrawn.isSome = true) (hi : matchesIdOrAlias adv ignored = false) :
    classify adv ignored reported = Disposition.Withdrawn := by
  simp [classify, hi, hw]

theorem classify_withdrawn_not_ignored_witness :
    withdrawnIgnoredAdvisory.withdrawn.isSome = true ∧
    matchesIdOrAlias withdrawnIgnoredAdvisory ["CVE-2000-0001"] = false ∧
    classify withdrawnIgnoredAdvisory ["CVE-2000-0001"] ["PYSEC-2021-1"] =
      Disposition.Withdrawn :=
  ⟨by decide, by decide,
   classify_withdrawn_not_ignored withdrawnIgnoredAdvisory ["CVE-2000-0001"] ["PYSEC-2021-1"]
     (by decide) (by decide)⟩

/-- C2 (code-bug evaluation): with per-CVE dates `["2021-05-01", ""]` — the
second CVE's lookup unresolved — the discovery-date selection is not total: it
raises ValueError in `strptime('', "%Y-%m-%d")` instead of skipping the empty
date and emitting `2021-05-01`. -/
theorem discoveryDate_raises_on_unresolved_after_resolved :
    discoveryDateElement ["2021-05-01", ""] =
      Except.error "ValueError: time data does not match format %Y-%m-%d" := by
  rfl

/-- C3 (code-bug evaluation): on the HTTP-error branch the empty cache file is
never written — at a 404 with a caching directory available the outcome's
cache write is `none`, and so for every HTTP error — because
`error == 'HTTP Error 404: Not Found'` compares the exception object with a
string and is always False. -/
theorem cache_miss_file_never_written :
    (get_cve_publication_date true none
        (Except.error { code := 404, reason := "Not Found" })).cacheWrite = none ∧
    ∀ (hasCachingFile : Bool) (e : HttpError),
      (get_cve_publication_date hasCachingFile none (Except.error e)).cacheWrite = none := by
  refine ⟨rfl, ?_⟩
  intro hasCachingFile e
  simp [get_cve_publication_date, pyHttpErrorEqString]

/-- C4 (code-bug evaluation): `get_cve_publication_date` itself degrades an
HTTP failure to the empty date (non-fatal there), but the caller's
discovery-date loop then raises ValueError on that empty date whenever an
earlier CVE of the same skeleton resolved — a single failed lookup aborts the
run. -/
theorem date_lookup_failure_aborts_caller :
    (get_cve_publication_date true none
        (Except.error { code := 503, reason := "Service Unavailable" })).date = "" ∧
    selectFirstPublicationDate ["2020-11-02", ""] "" =
      Except.error "ValueError: time data does not match format %Y-%m-%d" := by
  exact ⟨rfl, rfl⟩

/-- C8: the skeleton's version constraint depends only on `fixed_in`: empty →
`<le>` of the current port version; a single element → `<lt>` of it; two or
more elements → the human-edit placeholder range. -/
theorem skeletonRange_policy :
    (∀ pv : String, skeletonRange [] pv = VersionRange.le pv) ∧
    (∀ v pv : String, skeletonRange [v] pv = VersionRange.lt v) ∧
    (∀ (v1 v2 : String) (rest : List String) (pv : String),
      skeletonRange (v1 :: v2 :: rest) pv = VersionRange.placeholderRange) := by
  refine ⟨fun pv => rfl, fun v pv => rfl, fun v1 v2 rest pv => ?_⟩
  simp [skeletonRange]

theorem foldl_add_eq_add_sum (l : List Nat) : ∀ n : Nat, l.foldl (· + ·) n = n + l.sum := by
  induction l with
  | nil => intro n; simp
  | cons a rest ih =>
    intro n
    simp only [List.foldl_cons, List.sum_cons, ih (n + a)]
    omega

/-- C9: the printed table-of-contents aggregates are consistent: the printed
`vulnerable ports` figure plus the false-positive count equals the number of
entries (package names) in the vulnerable mapping, and the printed
`vulnerabilities` total is the sum of the per-row vulnerability counts. -/
theorem toc_aggregate_equations (ports : List Port) (ignored : List String)
    (vps : List (String × List (String × List Advisory))) :
    toc_vulnerable_ports_printed ports ignored vps + ((toc_process ports ignored vps).1 : Int)
        = (vps.length : Int) ∧
    toc_vulnerabilities_printed ports ignored vps = (toc_process ports ignored vps).2.sum := by
  constructor
  · simp only [toc_vulnerable_ports_printed]
    omega
  · simp [toc_vulnerabilities_printed, foldl_add_eq_add_sum]

/-- C10: loading a missing ignore or reported file yields the empty id list;
with an empty ignore list no advisory is classified Ignored, and with an empty
reported list none is classified Reported; an existing file yields exactly its
non-empty lines not starting with `'#'`, in file order. -/
theorem get_ids_from_file_missing_or_present :
    get_ids_from_file none = [] ∧
    (∀ ls : List String, get_ids_from_file (some ls) =
      ls.filter (fun line => line ≠ "" ∧ ¬ line.startsWith "#")) ∧
    (∀ (adv : Advisory) (reported : List String),
      classify adv [] reported ≠ Disposition.Ignored) ∧
    (∀ (adv : Advisory) (ignored : List String),
      classify adv ignored [] ≠ Disposition.Reported) := by
  refine ⟨rfl, fun ls => rfl, ?_, ?_⟩
  · intro adv reported
    have hm : matchesIdOrAlias adv [] = false := by
      simp [matchesIdOrAlias]
    simp only [classify, hm]
    split_ifs <;> simp_all
  · intro adv ignored
    have hm : matchesIdOrAlias adv [] = false := by
      simp [matchesIdOrAlias]
    simp only [classify, hm]
    split_ifs <;> simp_all
